import Mathlib

/- Shallow embedding of src/src/lib.rs: a nom-based parser for a dual-bank
("A/B") firmware-update configuration file.  Inputs are lists of characters
(the Rust code parses `&str` slices); nom's `IResult` is modelled by
`PResult`, whose `fatal` outcome models the Rust panics reachable from the
`unimplemented!`, `unreachable!` and `expect` calls in the source. -/

inductive ConfigKeys where
  | Active
  | Passive
deriving DecidableEq, Repr

inductive UpdateStatus where
  | Updating
  | Testing
  | Success
deriving DecidableEq, Repr

/-- `ActiveConf` from the source: header tag, image label and version. -/
structure ActiveConf where
  active_config : ConfigKeys
  image_name : List Char × List Char
  image_version : Nat
deriving DecidableEq, Repr

/-- `PassiveConf` from the source: header tag, flag, and three optional fields. -/
structure PassiveConf where
  passive_config : ConfigKeys
  ready_for_update_flag : Bool
  image_name : Option (List Char × List Char)
  image_version : Option Nat
  update_status : Option UpdateStatus
deriving DecidableEq, Repr

/-- The nom error kinds produced by this grammar. -/
inductive ErrKind where
  | tag
  | alphaNumeric
deriving DecidableEq, Repr

/-- Outcome of a parser: nom's `Ok((rest, value))`, nom's `Err(Error(rest, kind))`,
or a Rust panic (`fatal`). -/
inductive PResult (α : Type) where
  | ok (rest : List Char) (val : α)
  | err (rest : List Char) (kind : ErrKind)
  | fatal
deriving DecidableEq, Repr

/-- Strip an expected token from the front of the input, or fail. -/
def stripPrefixChars : List Char → List Char → Option (List Char)
  | [], i => some i
  | _ :: _, [] => none
  | c :: t, d :: i => if c = d then stripPrefixChars t i else none

/-- nom `tag`: consume the literal token or fail without consuming. -/
def tag (t : List Char) (i : List Char) : PResult (List Char) :=
  match stripPrefixChars t i with
  | some rest => .ok rest t
  | none => .err i .tag

/-- The characters accepted by nom `multispace0`: space, tab, CR, LF. -/
def isMultispace (c : Char) : Bool :=
  c = ' ' || c = '\t' || c = '\r' || c = '\n'

/-- nom `character::complete::multispace0`: always succeeds, consumes the
maximal (possibly empty) whitespace run. -/
def multispace0 (i : List Char) : PResult (List Char) :=
  .ok (i.dropWhile isMultispace) (i.takeWhile isMultispace)

/-- nom `character::complete::digit0`: always succeeds, consumes the maximal
(possibly empty) run of ASCII decimal digits. -/
def digit0 (i : List Char) : PResult (List Char) :=
  .ok (i.dropWhile Char.isDigit) (i.takeWhile Char.isDigit)

/-- The character class of `alphanumericwithhypen`: ASCII alphanumerics or a hyphen. -/
def isNameChar (c : Char) : Bool :=
  c = '-' || c.isAlphanum

/-- `alphanumericwithhypen` from the source: `split_at_position1_complete`
over the hyphen/alphanumeric class; at least one character must match,
otherwise it fails with `ErrorKind::AlphaNumeric` consuming nothing. -/
def alphanumericwithhypen (i : List Char) : PResult (List Char) :=
  if i.takeWhile isNameChar = [] then .err i .alphaNumeric
  else .ok (i.dropWhile isNameChar) (i.takeWhile isNameChar)

/-- Sequencing of parsers, threading the remaining input (how nom's `tuple`,
`preceded` and `separated_pair` compose sub-parsers); errors and panics
propagate. -/
def pbind {α β : Type} (p : List Char → PResult α) (f : α → List Char → PResult β)
    (i : List Char) : PResult β :=
  match p i with
  | .ok r v => f v r
  | .err r k => .err r k
  | .fatal => .fatal

/-- nom `alt` over two alternatives: on error of the first, try the second on
the original input. -/
def alt2 {α : Type} (p q : List Char → PResult α) (i : List Char) : PResult α :=
  match p i with
  | .err _ _ => q i
  | r => r

/-- nom `alt` over three alternatives. -/
def alt3 {α : Type} (p q s : List Char → PResult α) : List Char → PResult α :=
  alt2 p (alt2 q s)

/-- nom `opt`: a recoverable error becomes `none` with no input consumed. -/
def opt {α : Type} (p : List Char → PResult α) (i : List Char) : PResult (Option α) :=
  match p i with
  | .ok r v => .ok r (some v)
  | .err _ _ => .ok i none
  | .fatal => .fatal

/-- nom `preceded`: run both, keep the second value. -/
def preceded {α β : Type} (p : List Char → PResult α) (q : List Char → PResult β) :
    List Char → PResult β :=
  pbind p fun _ => q

/-- nom `tuple` of two parsers, keeping both values. -/
def tuple2 {α β : Type} (p : List Char → PResult α) (q : List Char → PResult β) :
    List Char → PResult (α × β) :=
  pbind p fun v => pbind q fun w => fun r => .ok r (v, w)

/-- nom `separated_pair`: run three parsers, dropping the middle value. -/
def separated_pair {α β γ : Type} (p : List Char → PResult α) (s : List Char → PResult β)
    (q : List Char → PResult γ) : List Char → PResult (α × γ) :=
  pbind p fun v => pbind s fun _ => pbind q fun w => fun r => .ok r (v, w)

/-- `From<&str> for ConfigKeys`; the catch-all arm is the source's
`unimplemented!` panic, modelled by `none`. -/
def configKeysFromStr (s : List Char) : Option ConfigKeys :=
  if s = "[active]".data then some ConfigKeys.Active
  else if s = "[passive]".data then some ConfigKeys.Passive
  else none

/-- `From<&str> for UpdateStatus`; the catch-all arm is the source's
`unreachable!` panic, modelled by `none`. -/
def updateStatusFromStr (s : List Char) : Option UpdateStatus :=
  if s = "updating".data then some UpdateStatus.Updating
  else if s = "testing".data then some UpdateStatus.Testing
  else if s = "success".data then some UpdateStatus.Success
  else none

/-- Rust `bool::from_str`: exactly `true` or `false`; anything else is an
error (which the source turns into a panic via `expect`). -/
def boolFromStr (s : List Char) : Option Bool :=
  if s = "true".data then some true
  else if s = "false".data then some false
  else none

/-- Value of a string of decimal digits (the accumulator loop of Rust's
`str::parse::<u32>` on digit-only input). -/
def digitsToNat (s : List Char) : Nat :=
  s.foldl (fun a c => a * 10 + (c.toNat - 48)) 0

/-- Rust `str::parse::<u32>`: fails on the empty string, on any non-digit
character, and on overflow past `u32::MAX`.  (The full Rust parser also
accepts a leading `+`, which can never reach this call site because the
argument is always an output of `digit0`.) -/
def parseU32 (s : List Char) : Option Nat :=
  if s = [] then none
  else if s.all Char.isDigit then
    if digitsToNat s < 2 ^ 32 then some (digitsToNat s) else none
  else none

/-- `config_keys` from the source: `alt((tag("[active]"), tag("[passive]")))`
followed by the `From<&str>` conversion. -/
def config_keys (i : List Char) : PResult ConfigKeys :=
  match alt2 (tag "[active]".data) (tag "[passive]".data) i with
  | .ok r s =>
    match configKeysFromStr s with
    | some v => .ok r v
    | none => .fatal
  | .err r k => .err r k
  | .fatal => .fatal

/-- `image_name` from the source:
`preceded(tag("image_name="), tuple((alphanumericwithhypen, tag(".itb"))))`. -/
def image_name (i : List Char) : PResult (List Char × List Char) :=
  preceded (tag "image_name=".data) (tuple2 alphanumericwithhypen (tag ".itb".data)) i

/-- `image_version` from the source:
`preceded(tag("image_version="), separated_pair(tag("ver"), tag("_"), digit0))`
followed by `.parse::<u32>().expect(..)` on the digit run. -/
def image_version (i : List Char) : PResult Nat :=
  match preceded (tag "image_version=".data)
      (separated_pair (tag "ver".data) (tag "_".data) digit0) i with
  | .ok r p =>
    match parseU32 p.2 with
    | some v => .ok r v
    | none => .fatal
  | .err r k => .err r k
  | .fatal => .fatal

/-- `update_status` from the source: `preceded(tag("update_status="),
alt((tag("updating"), tag("testing"), tag("success"))))` followed by the
`From<&str>` conversion. -/
def update_status (i : List Char) : PResult UpdateStatus :=
  match preceded (tag "update_status=".data)
      (alt3 (tag "updating".data) (tag "testing".data) (tag "success".data)) i with
  | .ok r s =>
    match updateStatusFromStr s with
    | some v => .ok r v
    | none => .fatal
  | .err r k => .err r k
  | .fatal => .fatal

/-- `ready_for_update` from the source: `preceded(tag("ready_for_update_flag="),
alt((tag("true"), tag("false"))))` followed by `bool::from_str(..).expect(..)`. -/
def ready_for_update (i : List Char) : PResult Bool :=
  match preceded (tag "ready_for_update_flag=".data)
      (alt2 (tag "true".data) (tag "false".data)) i with
  | .ok r s =>
    match boolFromStr s with
    | some v => .ok r v
    | none => .fatal
  | .err r k => .err r k
  | .fatal => .fatal

/-- `active_config` from the source: the fixed `tuple` of whitespace-skips and
mandatory fields, assembled into `ActiveConf`. -/
def active_config : List Char → PResult ActiveConf :=
  pbind multispace0 fun _ =>
  pbind config_keys fun ck =>
  pbind multispace0 fun _ =>
  pbind image_name fun nm =>
  pbind multispace0 fun _ =>
  pbind image_version fun ver =>
  pbind multispace0 fun _ => fun rest =>
  .ok rest { active_config := ck, image_name := nm, image_version := ver }

/-- `passive_config` from the source: header, mandatory flag, then the three
`opt` fields, each surrounded by whitespace-skips. -/
def passive_config : List Char → PResult PassiveConf :=
  pbind multispace0 fun _ =>
  pbind config_keys fun ck =>
  pbind multispace0 fun _ =>
  pbind ready_for_update fun fl =>
  pbind multispace0 fun _ =>
  pbind (opt image_name) fun nm =>
  pbind multispace0 fun _ =>
  pbind (opt image_version) fun ver =>
  pbind multispace0 fun _ =>
  pbind (opt update_status) fun st =>
  pbind multispace0 fun _ => fun rest =>
  .ok rest { passive_config := ck, ready_for_update_flag := fl, image_name := nm,
             image_version := ver, update_status := st }

/-- `parse_config` from the source: `tuple((active_config, passive_config))`. -/
def parse_config : List Char → PResult (ActiveConf × PassiveConf) :=
  pbind active_config fun a => pbind passive_config fun p => fun rest => .ok rest (a, p)

/-- `true` iff the input is empty or its first character does not satisfy `p`
(maximal runs of `p`-characters stop exactly at such a position). -/
def headFails (p : Char → Bool) : List Char → Bool
  | [] => true
  | c :: _ => !(p c)

/-- The decimal digit character for a value below ten. -/
def digitChar (d : Nat) : Char :=
  match d with
  | 0 => '0'
  | 1 => '1'
  | 2 => '2'
  | 3 => '3'
  | 4 => '4'
  | 5 => '5'
  | 6 => '6'
  | 7 => '7'
  | 8 => '8'
  | _ => '9'

/-- Decimal rendering of a natural number, most significant digit first. -/
def natDigits (n : Nat) : List Char :=
  if _h : n < 10 then [digitChar n]
  else natDigits (n / 10) ++ [digitChar (n % 10)]
decreasing_by exact Nat.div_lt_self (by omega) (by omega)

/-- The literal token of each update status, as it appears in the grammar. -/
def statusToken : UpdateStatus → List Char
  | .Updating => "updating".data
  | .Testing => "testing".data
  | .Success => "success".data

/-- Modelled from the spec: the repository has no serializer under `src/`;
section 8's round-trip property speaks of "serializing it back to text in the
canonical field order", i.e. the field order of the grammar in section 6.
Canonical text of an active record, fields separated by single newlines. -/
def serializeActive (a : ActiveConf) : List Char :=
  "[active]".data ++ "\n".data ++
  "image_name=".data ++ a.image_name.1 ++ a.image_name.2 ++ "\n".data ++
  "image_version=".data ++ "ver".data ++ "_".data ++ natDigits a.image_version ++ "\n".data

/-- Modelled from the spec: the optional `image_name=` line of a passive
record; an absent field produces no text. -/
def serializeNameLine : Option (List Char × List Char) → List Char
  | some l => "image_name=".data ++ l.1 ++ l.2 ++ "\n".data
  | none => []

/-- Modelled from the spec: the optional `image_version=` line of a passive
record; an absent field produces no text. -/
def serializeVersionLine : Option Nat → List Char
  | some v => "image_version=".data ++ "ver".data ++ "_".data ++ natDigits v ++ "\n".data
  | none => []

/-- Modelled from the spec: the optional `update_status=` line of a passive
record; an absent field produces no text. -/
def serializeStatusLine : Option UpdateStatus → List Char
  | some s => "update_status=".data ++ statusToken s ++ "\n".data
  | none => []

/-- Modelled from the spec: canonical text of a passive record in the field
order of section 6's grammar; absent optional fields produce no line. -/
def serializePassive (p : PassiveConf) : List Char :=
  "[passive]".data ++ "\n".data ++
  "ready_for_update_flag=".data ++
  (if p.ready_for_update_flag then "true".data else "false".data) ++ "\n".data ++
  serializeNameLine p.image_name ++
  serializeVersionLine p.image_version ++
  serializeStatusLine p.update_status

/-- Modelled from the spec: canonical text of a whole configuration, active
record first. -/
def serializeConfig (a : ActiveConf) (p : PassiveConf) : List Char :=
  serializeActive a ++ serializePassive p

/-- A syntactically valid image label: non-empty hyphen/alphanumeric base name
and the fixed `.itb` extension. -/
def validLabel (l : List Char × List Char) : Prop :=
  l.1 ≠ [] ∧ l.1.all isNameChar = true ∧ l.2 = ".itb".data

/-- A syntactically valid instance of the active record. -/
def validActive (a : ActiveConf) : Prop :=
  a.active_config = ConfigKeys.Active ∧ validLabel a.image_name ∧ a.image_version < 2 ^ 32

/-- A syntactically valid instance of the passive record. -/
def validPassive (p : PassiveConf) : Prop :=
  p.passive_config = ConfigKeys.Passive ∧
  (∀ l ∈ p.image_name, validLabel l) ∧
  (∀ v ∈ p.image_version, v < 2 ^ 32)

/-- `true` iff the parser outcome is the panic outcome. -/
def isFatal {α : Type} : PResult α → Bool
  | .fatal => true
  | _ => false

/-- A token strips cleanly off any input that starts with it. -/
theorem stripPrefixChars_append (t r : List Char) : stripPrefixChars t (t ++ r) = some r := by
  induction t with
  | nil => rfl
  | cons c t ih => simp [stripPrefixChars, ih]

/-- If a token strips off the input, the input is the token followed by the rest. -/
theorem stripPrefixChars_eq_some {t i r : List Char} (h : stripPrefixChars t i = some r) :
    i = t ++ r := by
  induction t generalizing i with
  | nil => simpa [stripPrefixChars] using h
  | cons c t ih =>
    cases i with
    | nil => simp [stripPrefixChars] at h
    | cons d i =>
      by_cases hc : c = d
      · subst hc
        simp only [stripPrefixChars, if_pos rfl] at h
        simpa using ih h
      · simp [stripPrefixChars, hc] at h

/-- Stripping fails exactly when the token is not a prefix of the input. -/
theorem stripPrefixChars_eq_none_iff (t i : List Char) :
    stripPrefixChars t i = none ↔ ¬ t <+: i := by
  induction t generalizing i with
  | nil => simp [stripPrefixChars, List.nil_prefix]
  | cons c t ih =>
    cases i with
    | nil => simp [stripPrefixChars]
    | cons d i =>
      by_cases hc : c = d
      · subst hc
        simp [stripPrefixChars, ih, List.cons_prefix_cons]
      · simp [stripPrefixChars, hc, List.cons_prefix_cons]

theorem tag_ok (t r : List Char) : tag t (t ++ r) = .ok r t := by
  simp [tag, stripPrefixChars_append]

theorem tag_err {t i : List Char} (h : stripPrefixChars t i = none) : tag t i = .err i .tag := by
  simp [tag, h]

theorem tag_eq_ok {t i r v : List Char} (h : tag t i = .ok r v) : i = t ++ r ∧ v = t := by
  unfold tag at h
  cases hs : stripPrefixChars t i with
  | none => rw [hs] at h; cases h
  | some r2 =>
    rw [hs] at h
    cases h
    exact ⟨stripPrefixChars_eq_some hs, rfl⟩

theorem tag_ne_fatal (t i : List Char) : tag t i ≠ .fatal := by
  unfold tag
  cases stripPrefixChars t i <;> simp

theorem pbind_ok {α β : Type} {p : List Char → PResult α} {f : α → List Char → PResult β}
    {i r : List Char} {v : α} (h : p i = .ok r v) : pbind p f i = f v r := by
  unfold pbind; rw [h]

theorem pbind_err {α β : Type} {p : List Char → PResult α} {f : α → List Char → PResult β}
    {i r : List Char} {k : ErrKind} (h : p i = .err r k) : pbind p f i = .err r k := by
  unfold pbind; rw [h]

theorem pbind_fatal {α β : Type} {p : List Char → PResult α} {f : α → List Char → PResult β}
    {i : List Char} (h : p i = .fatal) : pbind p f i = .fatal := by
  unfold pbind; rw [h]

theorem opt_ok {α : Type} {p : List Char → PResult α} {i r : List Char} {v : α}
    (h : p i = .ok r v) : opt p i = .ok r (some v) := by
  unfold opt; rw [h]

theorem opt_err {α : Type} {p : List Char → PResult α} {i r : List Char} {k : ErrKind}
    (h : p i = .err r k) : opt p i = .ok i none := by
  unfold opt; rw [h]

theorem all_takeWhile (p : Char → Bool) (l : List Char) : (l.takeWhile p).all p = true := by
  induction l with
  | nil => rfl
  | cons c l ih => by_cases h : p c <;> simp [List.takeWhile_cons, h, ih]

theorem takeWhile_append_of_all {p : Char → Bool} {a : List Char} (b : List Char)
    (h : a.all p = true) : (a ++ b).takeWhile p = a ++ b.takeWhile p := by
  induction a with
  | nil => simp
  | cons c a ih => simp_all [List.takeWhile_cons]

theorem dropWhile_append_of_all {p : Char → Bool} {a : List Char} (b : List Char)
    (h : a.all p = true) : (a ++ b).dropWhile p = b.dropWhile p := by
  induction a with
  | nil => simp
  | cons c a ih => simp_all [List.dropWhile_cons]

theorem takeWhile_eq_nil_of_headFails {p : Char → Bool} {l : List Char}
    (h : headFails p l = true) : l.takeWhile p = [] := by
  cases l with
  | nil => rfl
  | cons c l => simp_all [headFails, List.takeWhile_cons]

theorem dropWhile_eq_self_of_headFails {p : Char → Bool} {l : List Char}
    (h : headFails p l = true) : l.dropWhile p = l := by
  cases l with
  | nil => rfl
  | cons c l => simp_all [headFails, List.dropWhile_cons]

theorem ms0_id (i : List Char) (h : headFails isMultispace i = true) :
    multispace0 i = .ok i [] := by
  simp [multispace0, takeWhile_eq_nil_of_headFails h, dropWhile_eq_self_of_headFails h]

theorem ms0_newline (r : List Char) (h : headFails isMultispace r = true) :
    multispace0 ("\n".data ++ r) = .ok r "\n".data := by
  show multispace0 ('\n' :: r) = .ok r ['\n']
  simp [multispace0, List.takeWhile_cons, List.dropWhile_cons,
    (show isMultispace '\n' = true from rfl),
    takeWhile_eq_nil_of_headFails h, dropWhile_eq_self_of_headFails h]

theorem digit0_split {d : List Char} (r : List Char) (hd : d.all Char.isDigit = true)
    (hr : headFails Char.isDigit r = true) : digit0 (d ++ r) = .ok r d := by
  simp [digit0, takeWhile_append_of_all r hd, dropWhile_append_of_all r hd,
    takeWhile_eq_nil_of_headFails hr, dropWhile_eq_self_of_headFails hr]

theorem alnum_split {n : List Char} (r : List Char) (hn : n ≠ []) (ha : n.all isNameChar = true)
    (hr : headFails isNameChar r = true) : alphanumericwithhypen (n ++ r) = .ok r n := by
  unfold alphanumericwithhypen
  rw [takeWhile_append_of_all r ha, takeWhile_eq_nil_of_headFails hr,
      dropWhile_append_of_all r ha, dropWhile_eq_self_of_headFails hr]
  simp [hn]

theorem alnum_eq_ok {i r v : List Char} (h : alphanumericwithhypen i = .ok r v) :
    v ≠ [] ∧ v.all isNameChar = true ∧ i = v ++ r := by
  unfold alphanumericwithhypen at h
  by_cases ht : i.takeWhile isNameChar = []
  · rw [if_pos ht] at h; cases h
  · rw [if_neg ht] at h
    cases h
    exact ⟨ht, all_takeWhile _ _, (List.takeWhile_append_dropWhile _ _).symm⟩

theorem digitChar_isDigit (d : Nat) (h : d < 10) : (digitChar d).isDigit = true := by
  interval_cases d <;> decide

theorem digitChar_toNat (d : Nat) (h : d < 10) : (digitChar d).toNat - 48 = d := by
  interval_cases d <;> decide

theorem natDigits_ne_nil (n : Nat) : natDigits n ≠ [] := by
  unfold natDigits
  by_cases h : n < 10
  · rw [dif_pos h]; simp
  · rw [dif_neg h]; simp

theorem natDigits_all (n : Nat) : (natDigits n).all Char.isDigit = true := by
  induction n using Nat.strong_induction_on with
  | _ n ih =>
    unfold natDigits
    by_cases h : n < 10
    · rw [dif_pos h]; simp [digitChar_isDigit n h]
    · rw [dif_neg h]
      simp [List.all_append, ih (n / 10) (Nat.div_lt_self (by omega) (by omega)),
        digitChar_isDigit (n % 10) (by omega)]

theorem digitsToNat_append_singleton (a : List Char) (c : Char) :
    digitsToNat (a ++ [c]) = digitsToNat a * 10 + (c.toNat - 48) := by
  simp [digitsToNat, List.foldl_append]

theorem digitsToNat_natDigits (n : Nat) : digitsToNat (natDigits n) = n := by
  induction n using Nat.strong_induction_on with
  | _ n ih =>
    unfold natDigits
    by_cases h : n < 10
    · rw [dif_pos h]
      show digitsToNat [digitChar n] = n
      have hd := digitChar_toNat n h
      simp [digitsToNat]
      omega
    · rw [dif_neg h, digitsToNat_append_singleton,
        ih (n / 10) (Nat.div_lt_self (by omega) (by omega)),
        digitChar_toNat (n % 10) (by omega)]
      omega

theorem parseU32_natDigits (n : Nat) (h : n < 2 ^ 32) : parseU32 (natDigits n) = some n := by
  unfold parseU32
  rw [if_neg (natDigits_ne_nil n), if_pos (natDigits_all n), digitsToNat_natDigits, if_pos h]

theorem alnum_ne_fatal (i : List Char) : alphanumericwithhypen i ≠ .fatal := by
  unfold alphanumericwithhypen
  by_cases h : i.takeWhile isNameChar = [] <;> simp [h]

theorem pbind_ms0_noop {β : Type} (f : List Char → List Char → PResult β) (i : List Char)
    (h : headFails isMultispace i = true) : pbind multispace0 f i = f [] i :=
  pbind_ok (ms0_id i h)

theorem pbind_ms0_newline {β : Type} (f : List Char → List Char → PResult β) (r : List Char)
    (h : headFails isMultispace r = true) :
    pbind multispace0 f ("\n".data ++ r) = f "\n".data r :=
  pbind_ok (ms0_newline r h)

theorem pbind_ms0_newline_end {β : Type} (f : List Char → List Char → PResult β) :
    pbind multispace0 f "\n".data = f "\n".data [] := rfl

theorem config_keys_active (x : List Char) :
    config_keys ("[active]".data ++ x) = .ok x ConfigKeys.Active := rfl

theorem config_keys_passive (x : List Char) :
    config_keys ("[passive]".data ++ x) = .ok x ConfigKeys.Passive := rfl

theorem config_keys_err {i : List Char} (h1 : ¬ "[active]".data <+: i)
    (h2 : ¬ "[passive]".data <+: i) : config_keys i = .err i .tag := by
  have e1 := tag_err ((stripPrefixChars_eq_none_iff "[active]".data i).mpr h1)
  have e2 := tag_err ((stripPrefixChars_eq_none_iff "[passive]".data i).mpr h2)
  unfold config_keys alt2
  rw [e1, e2]

theorem pbind_config_keys_active {β : Type} (f : ConfigKeys → List Char → PResult β)
    (x : List Char) : pbind config_keys f ("[active]".data ++ x) = f ConfigKeys.Active x :=
  pbind_ok (config_keys_active x)

theorem pbind_config_keys_passive {β : Type} (f : ConfigKeys → List Char → PResult β)
    (x : List Char) : pbind config_keys f ("[passive]".data ++ x) = f ConfigKeys.Passive x :=
  pbind_ok (config_keys_passive x)

theorem image_name_split (n x : List Char) (hn : n ≠ []) (ha : n.all isNameChar = true) :
    image_name ("image_name=".data ++ (n ++ (".itb".data ++ x))) = .ok x (n, ".itb".data) := by
  unfold image_name preceded tuple2
  rw [pbind_ok (tag_ok "image_name=".data (n ++ (".itb".data ++ x)))]
  rw [pbind_ok (alnum_split (".itb".data ++ x) hn ha rfl)]
  rw [pbind_ok (tag_ok ".itb".data x)]

theorem image_name_err {i : List Char} (h : stripPrefixChars "image_name=".data i = none) :
    image_name i = .err i .tag := by
  unfold image_name preceded
  exact pbind_err (tag_err h)

theorem pbind_image_name_ok {β : Type} (f : List Char × List Char → List Char → PResult β)
    (n x : List Char) (h1 : n ≠ []) (h2 : n.all isNameChar = true) :
    pbind image_name f ("image_name=".data ++ (n ++ (".itb".data ++ x)))
      = f (n, ".itb".data) x :=
  pbind_ok (image_name_split n x h1 h2)

theorem pbind_opt_name_some {β : Type}
    (f : Option (List Char × List Char) → List Char → PResult β) (n x : List Char)
    (h1 : n ≠ []) (h2 : n.all isNameChar = true) :
    pbind (opt image_name) f ("image_name=".data ++ (n ++ (".itb".data ++ x)))
      = f (some (n, ".itb".data)) x :=
  pbind_ok (opt_ok (image_name_split n x h1 h2))

theorem pbind_opt_name_none {β : Type}
    (f : Option (List Char × List Char) → List Char → PResult β) (i : List Char)
    (h : stripPrefixChars "image_name=".data i = none) :
    pbind (opt image_name) f i = f none i :=
  pbind_ok (opt_err (image_name_err h))

theorem image_version_core (t : List Char) :
    image_version ("image_version=".data ++ ("ver".data ++ ("_".data ++ t)))
      = match parseU32 (t.takeWhile Char.isDigit) with
        | some v => .ok (t.dropWhile Char.isDigit) v
        | none => .fatal := by
  have hsep : preceded (tag "image_version=".data)
      (separated_pair (tag "ver".data) (tag "_".data) digit0)
      ("image_version=".data ++ ("ver".data ++ ("_".data ++ t)))
      = .ok (t.dropWhile Char.isDigit) ("ver".data, t.takeWhile Char.isDigit) := by
    unfold preceded separated_pair
    rw [pbind_ok (tag_ok "image_version=".data ("ver".data ++ ("_".data ++ t)))]
    rw [pbind_ok (tag_ok "ver".data ("_".data ++ t))]
    rw [pbind_ok (tag_ok "_".data t)]
    rfl
  unfold image_version
  rw [hsep]

theorem image_version_split (d x : List Char) (hne : d ≠ []) (hd : d.all Char.isDigit = true)
    (hlt : digitsToNat d < 2 ^ 32) (hx : headFails Char.isDigit x = true) :
    image_version ("image_version=".data ++ ("ver".data ++ ("_".data ++ (d ++ x))))
      = .ok x (digitsToNat d) := by
  rw [image_version_core (d ++ x)]
  rw [takeWhile_append_of_all x hd, takeWhile_eq_nil_of_headFails hx,
      dropWhile_append_of_all x hd, dropWhile_eq_self_of_headFails hx, List.append_nil]
  unfold parseU32
  rw [if_neg hne, if_pos hd, if_pos hlt]

theorem image_version_err {i : List Char}
    (h : stripPrefixChars "image_version=".data i = none) :
    image_version i = .err i .tag := by
  unfold image_version preceded
  rw [pbind_err (tag_err h)]

theorem pbind_opt_version_some {β : Type} (f : Option Nat → List Char → PResult β) (v : Nat)
    (x : List Char) (hv : v < 2 ^ 32) (hx : headFails Char.isDigit x = true) :
    pbind (opt image_version) f
      ("image_version=".data ++ ("ver".data ++ ("_".data ++ (natDigits v ++ x))))
      = f (some v) x := by
  have h := image_version_split (natDigits v) x (natDigits_ne_nil v) (natDigits_all v)
    (by rw [digitsToNat_natDigits]; exact hv) hx
  rw [digitsToNat_natDigits] at h
  exact pbind_ok (opt_ok h)

theorem pbind_opt_version_none {β : Type} (f : Option Nat → List Char → PResult β)
    (i : List Char) (h : stripPrefixChars "image_version=".data i = none) :
    pbind (opt image_version) f i = f none i :=
  pbind_ok (opt_err (image_version_err h))

theorem update_status_token (s : UpdateStatus) (x : List Char) :
    update_status ("update_status=".data ++ (statusToken s ++ x)) = .ok x s := by
  cases s <;> rfl

theorem update_status_err {i : List Char}
    (h : stripPrefixChars "update_status=".data i = none) :
    update_status i = .err i .tag := by
  unfold update_status preceded
  rw [pbind_err (tag_err h)]

theorem pbind_opt_status_some {β : Type} (f : Option UpdateStatus → List Char → PResult β)
    (s : UpdateStatus) (x : List Char) :
    pbind (opt update_status) f ("update_status=".data ++ (statusToken s ++ x))
      = f (some s) x := by
  cases s <;> rfl

theorem pbind_opt_status_none {β : Type} (f : Option UpdateStatus → List Char → PResult β)
    (i : List Char) (h : stripPrefixChars "update_status=".data i = none) :
    pbind (opt update_status) f i = f none i :=
  pbind_ok (opt_err (update_status_err h))

theorem ready_token (b : Bool) (x : List Char) :
    ready_for_update
      ("ready_for_update_flag=".data ++ ((if b then "true".data else "false".data) ++ x))
      = .ok x b := by
  cases b <;> rfl

theorem pbind_ready {β : Type} (f : Bool → List Char → PResult β) (b : Bool) (x : List Char) :
    pbind ready_for_update f
      ("ready_for_update_flag=".data ++ ((if b then "true".data else "false".data) ++ x))
      = f b x := by
  cases b <;> rfl

theorem image_name_eq_ok {i r : List Char} {v : List Char × List Char}
    (h : image_name i = .ok r v) :
    ∃ n, n ≠ [] ∧ n.all isNameChar = true ∧
      i = "image_name=".data ++ n ++ ".itb".data ++ r ∧ v = (n, ".itb".data) := by
  cases h1 : tag "image_name=".data i with
  | fatal => exact absurd h1 (tag_ne_fatal _ _)
  | err r1 k1 =>
    have e1 : image_name i = .err r1 k1 := by
      unfold image_name preceded; exact pbind_err h1
    rw [e1] at h; cases h
  | ok r1 v1 =>
    have e1 : image_name i = tuple2 alphanumericwithhypen (tag ".itb".data) r1 := by
      unfold image_name preceded; exact pbind_ok h1
    rw [e1] at h
    obtain ⟨hi1, -⟩ := tag_eq_ok h1
    cases h2 : alphanumericwithhypen r1 with
    | fatal => exact absurd h2 (alnum_ne_fatal _)
    | err r2 k2 =>
      have e2 : tuple2 alphanumericwithhypen (tag ".itb".data) r1 = .err r2 k2 := by
        unfold tuple2; exact pbind_err h2
      rw [e2] at h; cases h
    | ok r2 v2 =>
      obtain ⟨hne, hall, hi2⟩ := alnum_eq_ok h2
      cases h3 : tag ".itb".data r2 with
      | fatal => exact absurd h3 (tag_ne_fatal _ _)
      | err r3 k3 =>
        have e3 : tuple2 alphanumericwithhypen (tag ".itb".data) r1 = .err r3 k3 := by
          unfold tuple2
          rw [pbind_ok h2]
          exact pbind_err h3
        rw [e3] at h; cases h
      | ok r3 v3 =>
        obtain ⟨hi3, hv3⟩ := tag_eq_ok h3
        have e3 : tuple2 alphanumericwithhypen (tag ".itb".data) r1 = .ok r3 (v2, v3) := by
          unfold tuple2
          rw [pbind_ok h2]
          exact pbind_ok h3
        rw [e3] at h
        injection h with hr hv
        refine ⟨v2, hne, hall, ?_, by rw [← hv, hv3]⟩
        rw [hi1, hi2, hi3, ← hr]
        simp [List.append_assoc]

theorem pbind_image_version_ok {β : Type} (f : Nat → List Char → PResult β) (v : Nat)
    (x : List Char) (hv : v < 2 ^ 32) (hx : headFails Char.isDigit x = true) :
    pbind image_version f
      ("image_version=".data ++ ("ver".data ++ ("_".data ++ (natDigits v ++ x)))) = f v x := by
  have h := image_version_split (natDigits v) x (natDigits_ne_nil v) (natDigits_all v)
    (by rw [digitsToNat_natDigits]; exact hv) hx
  rw [digitsToNat_natDigits] at h
  exact pbind_ok h

theorem active_split (a : ActiveConf) (rest : List Char) (ha : validActive a)
    (hr : headFails isMultispace rest = true) :
    active_config (serializeActive a ++ rest) = .ok rest a := by
  obtain ⟨ck, ⟨n1, n2⟩, ver⟩ := a
  simp only [validActive, validLabel] at ha
  obtain ⟨hck, ⟨h1, h2, h3⟩, hv⟩ := ha
  subst hck
  subst h3
  simp only [serializeActive, List.append_assoc]
  unfold active_config
  rw [pbind_ms0_noop]
  rw [pbind_config_keys_active]
  rw [pbind_ms0_newline]
  rw [pbind_image_name_ok]
  rw [pbind_ms0_newline]
  rw [pbind_image_version_ok]
  rw [pbind_ms0_newline]
  all_goals first | assumption | rfl

theorem passive_split (p : PassiveConf) (hp : validPassive p) :
    passive_config (serializePassive p) = .ok [] p := by
  obtain ⟨ck, fl, onm, over, ost⟩ := p
  simp only [validPassive, validLabel] at hp
  obtain ⟨hck, hnm, hver⟩ := hp
  subst hck
  cases onm with
  | none =>
    cases over with
    | none =>
      cases ost with
      | none =>
        simp only [serializePassive, serializeNameLine, serializeVersionLine,
          serializeStatusLine, List.append_assoc, List.append_nil, List.nil_append]
        unfold passive_config
        rw [pbind_ms0_noop, pbind_config_keys_passive, pbind_ms0_newline, pbind_ready,
            pbind_ms0_newline_end, pbind_opt_name_none, pbind_ms0_noop,
            pbind_opt_version_none, pbind_ms0_noop, pbind_opt_status_none, pbind_ms0_noop]
        all_goals rfl
      | some s =>
        simp only [serializePassive, serializeNameLine, serializeVersionLine,
          serializeStatusLine, List.append_assoc, List.append_nil, List.nil_append]
        unfold passive_config
        rw [pbind_ms0_noop, pbind_config_keys_passive, pbind_ms0_newline, pbind_ready,
            pbind_ms0_newline, pbind_opt_name_none, pbind_ms0_noop,
            pbind_opt_version_none, pbind_ms0_noop, pbind_opt_status_some,
            pbind_ms0_newline_end]
        all_goals cases s <;> rfl
    | some v =>
      have hv : v < 2 ^ 32 := hver v rfl
      cases ost with
      | none =>
        simp only [serializePassive, serializeNameLine, serializeVersionLine,
          serializeStatusLine, List.append_assoc, List.append_nil, List.nil_append]
        unfold passive_config
        rw [pbind_ms0_noop, pbind_config_keys_passive, pbind_ms0_newline, pbind_ready,
            pbind_ms0_newline, pbind_opt_name_none, pbind_ms0_noop,
            pbind_opt_version_some, pbind_ms0_newline_end, pbind_opt_status_none,
            pbind_ms0_noop]
        all_goals first | assumption | rfl
      | some s =>
        simp only [serializePassive, serializeNameLine, serializeVersionLine,
          serializeStatusLine, List.append_assoc, List.append_nil, List.nil_append]
        unfold passive_config
        rw [pbind_ms0_noop, pbind_config_keys_passive, pbind_ms0_newline, pbind_ready,
            pbind_ms0_newline, pbind_opt_name_none, pbind_ms0_noop,
            pbind_opt_version_some, pbind_ms0_newline, pbind_opt_status_some,
            pbind_ms0_newline_end]
        all_goals first | assumption | (cases s <;> rfl)
  | some l =>
    obtain ⟨n1, n2⟩ := l
    obtain ⟨h1, h2, h3⟩ := hnm (n1, n2) rfl
    subst h3
    cases over with
    | none =>
      cases ost with
      | none =>
        simp only [serializePassive, serializeNameLine, serializeVersionLine,
          serializeStatusLine, List.append_assoc, List.append_nil, List.nil_append]
        unfold passive_config
        rw [pbind_ms0_noop, pbind_config_keys_passive, pbind_ms0_newline, pbind_ready,
            pbind_ms0_newline, pbind_opt_name_some, pbind_ms0_newline_end,
            pbind_opt_version_none, pbind_ms0_noop, pbind_opt_status_none, pbind_ms0_noop]
        all_goals first | assumption | rfl
      | some s =>
        simp only [serializePassive, serializeNameLine, serializeVersionLine,
          serializeStatusLine, List.append_assoc, List.append_nil, List.nil_append]
        unfold passive_config
        rw [pbind_ms0_noop, pbind_config_keys_passive, pbind_ms0_newline, pbind_ready,
            pbind_ms0_newline, pbind_opt_name_some, pbind_ms0_newline,
            pbind_opt_version_none, pbind_ms0_noop, pbind_opt_status_some,
            pbind_ms0_newline_end]
        all_goals first | assumption | (cases s <;> rfl)
    | some v =>
      have hv : v < 2 ^ 32 := hver v rfl
      cases ost with
      | none =>
        simp only [serializePassive, serializeNameLine, serializeVersionLine,
          serializeStatusLine, List.append_assoc, List.append_nil, List.nil_append]
        unfold passive_config
        rw [pbind_ms0_noop, pbind_config_keys_passive, pbind_ms0_newline, pbind_ready,
            pbind_ms0_newline, pbind_opt_name_some, pbind_ms0_newline,
            pbind_opt_version_some, pbind_ms0_newline_end, pbind_opt_status_none,
            pbind_ms0_noop]
        all_goals first | assumption | rfl
      | some s =>
        simp only [serializePassive, serializeNameLine, serializeVersionLine,
          serializeStatusLine, List.append_assoc, List.append_nil, List.nil_append]
        unfold passive_config
        rw [pbind_ms0_noop, pbind_config_keys_passive, pbind_ms0_newline, pbind_ready,
            pbind_ms0_newline, pbind_opt_name_some, pbind_ms0_newline,
            pbind_opt_version_some, pbind_ms0_newline, pbind_opt_status_some,
            pbind_ms0_newline_end]
        all_goals first | assumption | (cases s <;> rfl)

theorem config_keys_ne_fatal (i : List Char) : isFatal (config_keys i) = false := by
  unfold config_keys alt2
  cases h1 : tag "[active]".data i with
  | ok r v =>
    obtain ⟨-, hv⟩ := tag_eq_ok h1
    subst hv
    rfl
  | err r k =>
    cases h2 : tag "[passive]".data i with
    | ok r2 v2 =>
      obtain ⟨-, hv⟩ := tag_eq_ok h2
      subst hv
      rfl
    | err r2 k2 => rfl
    | fatal => exact absurd h2 (tag_ne_fatal _ _)
  | fatal => exact absurd h1 (tag_ne_fatal _ _)

theorem update_status_ne_fatal (i : List Char) : isFatal (update_status i) = false := by
  unfold update_status preceded
  cases h1 : tag "update_status=".data i with
  | fatal => exact absurd h1 (tag_ne_fatal _ _)
  | err r k =>
    rw [pbind_err h1]
    rfl
  | ok r v =>
    rw [pbind_ok h1]
    unfold alt3 alt2
    cases h2 : tag "updating".data r with
    | fatal => exact absurd h2 (tag_ne_fatal _ _)
    | ok r2 v2 =>
      obtain ⟨-, hv⟩ := tag_eq_ok h2
      subst hv
      rfl
    | err r2 k2 =>
      cases h3 : tag "testing".data r with
      | fatal => exact absurd h3 (tag_ne_fatal _ _)
      | ok r3 v3 =>
        obtain ⟨-, hv⟩ := tag_eq_ok h3
        subst hv
        rfl
      | err r3 k3 =>
        cases h4 : tag "success".data r with
        | fatal => exact absurd h4 (tag_ne_fatal _ _)
        | ok r4 v4 =>
          obtain ⟨-, hv⟩ := tag_eq_ok h4
          subst hv
          rfl
        | err r4 k4 => rfl

theorem ready_for_update_ne_fatal (i : List Char) : isFatal (ready_for_update i) = false := by
  unfold ready_for_update preceded
  cases h1 : tag "ready_for_update_flag=".data i with
  | fatal => exact absurd h1 (tag_ne_fatal _ _)
  | err r k =>
    rw [pbind_err h1]
    rfl
  | ok r v =>
    rw [pbind_ok h1]
    unfold alt2
    cases h2 : tag "true".data r with
    | fatal => exact absurd h2 (tag_ne_fatal _ _)
    | ok r2 v2 =>
      obtain ⟨-, hv⟩ := tag_eq_ok h2
      subst hv
      rfl
    | err r2 k2 =>
      cases h3 : tag "false".data r with
      | fatal => exact absurd h3 (tag_ne_fatal _ _)
      | ok r3 v3 =>
        obtain ⟨-, hv⟩ := tag_eq_ok h3
        subst hv
        rfl
      | err r3 k3 => rfl

/-- C1: the claim says `active_config` must fail when the section header parses
as `Passive` (and symmetrically for `passive_config` on an `Active` header).
The code has no such content check: `active_config` accepts a `[passive]`
header and stores the `Passive` tag in the `active_config` field, and
`passive_config` likewise accepts an `[active]` header. -/
theorem c1_header_mismatch_accepted :
    active_config "[passive]image_name=x.itbimage_version=ver_1".data
      = .ok [] ⟨ConfigKeys.Passive, ("x".data, ".itb".data), 1⟩ ∧
    passive_config "[active]ready_for_update_flag=true".data
      = .ok [] ⟨ConfigKeys.Active, true, none, none, none⟩ :=
  ⟨rfl, rfl⟩

/-- C2: the claim (and the repository's own `test_image_version`) says
`image_version("image_version=ver_111.222.345")` fails at the first non-digit
character.  The code instead succeeds: `digit0` stops at the first dot, the
run `111` parses fine, and the call returns `Ok((".222.345", 111))`.  The
first half of the claim (the 612634867 example) does hold. -/
theorem c2_image_version_examples :
    image_version "image_version=ver_612634867".data = .ok [] 612634867 ∧
    image_version "image_version=ver_111.222.345".data = .ok ".222.345".data 111 :=
  ⟨rfl, rfl⟩

/-- C3: for every input that starts with the literals `image_version=`, `ver`,
`_` and whose following maximal digit run is empty or does not fit in an
unsigned 32-bit integer, `image_version` reaches the panic branch of the
numeric conversion (the `expect` on `parse::<u32>`). -/
theorem c3_version_bad_digits_fatal (t : List Char)
    (h : t.takeWhile Char.isDigit = [] ∨ 2 ^ 32 ≤ digitsToNat (t.takeWhile Char.isDigit)) :
    image_version ("image_version=".data ++ ("ver".data ++ ("_".data ++ t))) = .fatal := by
  rw [image_version_core t]
  rcases h with h | h
  · rw [h]
    rfl
  · have hall := all_takeWhile Char.isDigit t
    by_cases hnil : t.takeWhile Char.isDigit = []
    · rw [hnil]
      rfl
    · unfold parseU32
      rw [if_neg hnil, if_pos hall, if_neg (Nat.not_lt.mpr h)]

theorem c3_witness :
    image_version ("image_version=".data ++ ("ver".data ++ ("_".data ++ "x7".data))) = .fatal :=
  c3_version_bad_digits_fatal "x7".data (Or.inl (by decide))

/-- C4: in `passive_config` each optional field is wrapped in `opt`, so a
recoverable failure of its sub-parser yields `none` and consumes no input;
concretely, a passive block with `ready_for_update_flag=false` followed by no
recognizable optional field lines succeeds with all three fields `none` and
leaves the unmatched trailing lines verbatim in the remainder. -/
theorem c4_optional_fields :
    (∀ i r k, image_name i = .err r k → opt image_name i = .ok i none) ∧
    (∀ i r k, image_version i = .err r k → opt image_version i = .ok i none) ∧
    (∀ i r k, update_status i = .err r k → opt update_status i = .ok i none) ∧
    passive_config
        "[passive]\nready_for_update_flag=false\nimage_name=\nimage_version=none\nupdate_status=none".data
      = .ok "image_name=\nimage_version=none\nupdate_status=none".data
          ⟨ConfigKeys.Passive, false, none, none, none⟩ :=
  ⟨fun _ _ _ h => opt_err h, fun _ _ _ h => opt_err h, fun _ _ _ h => opt_err h, rfl⟩

theorem c4_witness : opt image_name "z".data = .ok "z".data none :=
  c4_optional_fields.1 "z".data "z".data .tag rfl

/-- C5: `parse_config` runs `active_config` first and `passive_config` second
on exactly the remaining input (no whitespace-skipping of its own in between),
returns both records with the unconsumed input on success, and fails exactly
when either record parser fails, propagating the first error. -/
theorem c5_parse_config :
    (∀ i r a r2 p, active_config i = .ok r a → passive_config r = .ok r2 p →
        parse_config i = .ok r2 (a, p)) ∧
    (∀ i r k, active_config i = .err r k → parse_config i = .err r k) ∧
    (∀ i r a r2 k, active_config i = .ok r a → passive_config r = .err r2 k →
        parse_config i = .err r2 k) := by
  refine ⟨fun i r a r2 p h1 h2 => ?_, fun i r k h1 => ?_, fun i r a r2 k h1 h2 => ?_⟩
  · unfold parse_config
    rw [pbind_ok h1, pbind_ok h2]
  · unfold parse_config
    exact pbind_err h1
  · unfold parse_config
    rw [pbind_ok h1]
    exact pbind_err h2

theorem c5_witness :
    parse_config
        "[active]image_name=x.itbimage_version=ver_1[passive]ready_for_update_flag=true".data
      = .ok [] (⟨ConfigKeys.Active, ("x".data, ".itb".data), 1⟩,
          ⟨ConfigKeys.Passive, true, none, none, none⟩) :=
  c5_parse_config.1 _ "[passive]ready_for_update_flag=true".data
    ⟨ConfigKeys.Active, ("x".data, ".itb".data), 1⟩ []
    ⟨ConfigKeys.Passive, true, none, none, none⟩ rfl rfl

/-- C6: `config_keys` consumes exactly the header literal and yields the
matching variant for inputs starting with `[active]` or `[passive]`, and fails
without consuming any input otherwise. -/
theorem c6_config_keys :
    (∀ s, config_keys ("[active]".data ++ s) = .ok s ConfigKeys.Active) ∧
    (∀ s, config_keys ("[passive]".data ++ s) = .ok s ConfigKeys.Passive) ∧
    (∀ i, ¬ "[active]".data <+: i → ¬ "[passive]".data <+: i →
        config_keys i = .err i .tag) :=
  ⟨config_keys_active, config_keys_passive, fun _ h1 h2 => config_keys_err h1 h2⟩

theorem c6_witness : config_keys "nope".data = .err "nope".data .tag :=
  c6_config_keys.2.2 "nope".data
    ((stripPrefixChars_eq_none_iff "[active]".data "nope".data).mp rfl)
    ((stripPrefixChars_eq_none_iff "[passive]".data "nope".data).mp rfl)

/-- C7: `image_name` succeeds exactly on inputs that are the literal
`image_name=`, a non-empty hyphen/alphanumeric run, the literal `.itb`, and a
remainder, yielding the pair (run, ".itb"); in particular the
`signed-apertis-rpi4` example parses with remainder exactly the trailing
text. -/
theorem c7_image_name :
    (∀ n X, n ≠ [] → n.all isNameChar = true →
        image_name ("image_name=".data ++ n ++ ".itb".data ++ X) = .ok X (n, ".itb".data)) ∧
    (∀ i r v, image_name i = .ok r v →
        ∃ n, n ≠ [] ∧ n.all isNameChar = true ∧
          i = "image_name=".data ++ n ++ ".itb".data ++ r ∧ v = (n, ".itb".data)) ∧
    (∀ X, image_name ("image_name=signed-apertis-rpi4.itb".data ++ X)
        = .ok X ("signed-apertis-rpi4".data, ".itb".data)) := by
  refine ⟨fun n X h1 h2 => ?_, fun i r v h => image_name_eq_ok h, fun X => ?_⟩
  · rw [List.append_assoc, List.append_assoc]
    exact image_name_split n X h1 h2
  · exact image_name_split "signed-apertis-rpi4".data X (by decide) (by decide)

theorem c7_witness :
    image_name ("image_name=".data ++ "x".data ++ ".itb".data ++ [])
      = .ok [] ("x".data, ".itb".data) :=
  c7_image_name.1 "x".data [] (by decide) (by decide)

/-- C8: parsing after serializing is the identity on syntactically valid
instances: for every valid active and passive record, serializing them in the
canonical field order and running `parse_config` returns exactly the two
records with empty remainder. -/
theorem c8_roundtrip (a : ActiveConf) (p : PassiveConf) (ha : validActive a)
    (hp : validPassive p) : parse_config (serializeConfig a p) = .ok [] (a, p) := by
  unfold parse_config serializeConfig
  rw [pbind_ok (active_split a (serializePassive p) ha rfl)]
  rw [pbind_ok (passive_split p hp)]

theorem c8_witness :
    validActive ⟨ConfigKeys.Active, ("xx".data, ".itb".data), 7⟩ ∧
    validPassive ⟨ConfigKeys.Passive, true, some ("y-2".data, ".itb".data), some 9,
        some UpdateStatus.Testing⟩ ∧
    parse_config (serializeConfig ⟨ConfigKeys.Active, ("xx".data, ".itb".data), 7⟩
        ⟨ConfigKeys.Passive, true, some ("y-2".data, ".itb".data), some 9,
          some UpdateStatus.Testing⟩)
      = .ok [] (⟨ConfigKeys.Active, ("xx".data, ".itb".data), 7⟩,
          ⟨ConfigKeys.Passive, true, some ("y-2".data, ".itb".data), some 9,
            some UpdateStatus.Testing⟩) := by
  have hA : validActive ⟨ConfigKeys.Active, ("xx".data, ".itb".data), 7⟩ := by
    unfold validActive validLabel
    decide
  have hP : validPassive ⟨ConfigKeys.Passive, true, some ("y-2".data, ".itb".data), some 9,
      some UpdateStatus.Testing⟩ := by
    refine ⟨rfl, ?_, ?_⟩
    · intro l hl
      rw [Option.mem_def] at hl
      injection hl with h
      subst h
      unfold validLabel
      decide
    · intro v hv
      rw [Option.mem_def] at hv
      injection hv with h
      subst h
      decide
  exact ⟨hA, hP, c8_roundtrip _ _ hA hP⟩

/-- C9: the panicking conversion arms (the `unimplemented!` arm of
`From<&str> for ConfigKeys`, the `unreachable!` arm of
`From<&str> for UpdateStatus`, and the `expect` on `bool::from_str`) are
unreachable through `config_keys`, `update_status` and `ready_for_update`:
the alternative matchers pass only the exact recognized tokens. -/
theorem c9_conversions_never_panic (i : List Char) :
    isFatal (config_keys i) = false ∧ isFatal (update_status i) = false ∧
    isFatal (ready_for_update i) = false :=
  ⟨config_keys_ne_fatal i, update_status_ne_fatal i, ready_for_update_ne_fatal i⟩

/-- C10: the value parsers match prefixes only, with no delimiter required
after the token: `update_status=success` followed by anything yields `Success`
with exactly that trailing text as remainder (so `successful` parses leaving
`ful`), and likewise `ready_for_update_flag=true`. -/
theorem c10_prefix_matching :
    (∀ s, update_status ("update_status=success".data ++ s) = .ok s UpdateStatus.Success) ∧
    (∀ s, ready_for_update ("ready_for_update_flag=true".data ++ s) = .ok s true) ∧
    update_status "update_status=successful".data = .ok "ful".data UpdateStatus.Success := by
  refine ⟨fun s => ?_, fun s => ?_, rfl⟩
  · exact update_status_token UpdateStatus.Success s
  · exact ready_token true s
